import Mathlib

/-!
# Verification of the Slack image-generation bot (`slack_bot.py`)

A shallow embedding of the event intake and background-dispatch pipeline of
the bot, together with proofs settling the frozen claims about it.

Conventions of the embedding:
* Python strings are Lean `String` / `List Char`; the whitespace class of
  `str.split()` / `str.strip()` / the regex class `\s` is modelled by
  `isPyWS` (the ASCII part of Python's class; all data the endpoint
  handles is ASCII-ish Slack text).
* The regex pattern `f'<@{bot_user_id}>'` of `re.sub` is modelled as literal
  substring removal, which is what `re.sub` computes whenever the bot id
  contains no regex metacharacters (Slack ids are alphanumeric; the failure
  fallback id is the empty string — both are metacharacter-free).
* The regex `(\d+)[-\s]?year[-\s]?old` of `re.search` is modelled by an
  explicit leftmost scanner (`findAge`) with ASCII digits.
* Fallible Python code is modelled with `Except String`; an uncaught Python
  exception escaping the Flask handler (→ HTTP 500) is an `Except.error`.
* The process-wide `processed_events` set is a `Finset`.
-/

/-- The whitespace characters recognised by Python's `str.split()`,
`str.strip()` and the regex class `\s` (ASCII part). -/
def isPyWS (c : Char) : Bool :=
  c = ' ' || c = '\t' || c = '\n' || c = '\r' || c = '\x0b' || c = '\x0c'

/-- A character matching the regex class `[-\s]` (the optional separator in
the age pattern). -/
def sepChar (c : Char) : Bool :=
  c = '-' || isPyWS c

/-!
## Deduplication guard

`slack_bot.py` lines 207-215:
```
processed_events.add(event_id)
if len(processed_events) > 1000:
    processed_events.clear()
```
One insertion step of the seen-set: add the id, then clear the whole set if
the size now exceeds 1000.
-/

/-- One insert into the `processed_events` set: `add` followed by the
cap-then-clear cleanup (`if len(processed_events) > 1000: clear()`). -/
def markEvent {α : Type} [DecidableEq α] (s : Finset α) (e : α) : Finset α :=
  if 1000 < (insert e s).card then ∅ else insert e s

theorem markEvent_of_card_le {α : Type} [DecidableEq α] (s : Finset α) (e : α)
    (h : (insert e s).card ≤ 1000) : markEvent s e = insert e s := by
  simp [markEvent, Nat.not_lt.mpr h]

theorem markEvent_card_le {α : Type} [DecidableEq α] (s : Finset α) (e : α) :
    (markEvent s e).card ≤ 1000 := by
  unfold markEvent
  split
  · simp
  · omega

/-- Folding `markEvent` over a list whose union with the start set stays
within the cap never triggers the clear: it computes the plain union. -/
theorem foldl_markEvent_of_card_le {α : Type} [DecidableEq α] :
    ∀ (L : List α) (s : Finset α), (s ∪ L.toFinset).card ≤ 1000 →
      L.foldl markEvent s = s ∪ L.toFinset := by
  intro L
  induction L with
  | nil => intro s h; simp
  | cons a t ih =>
    intro s h
    have hsub : insert a s ⊆ s ∪ (a :: t).toFinset := by
      intro x hx
      rcases Finset.mem_insert.mp hx with rfl | hx
      · simp
      · exact Finset.mem_union_left _ hx
    have hcard : (insert a s).card ≤ 1000 :=
      le_trans (Finset.card_le_card hsub) h
    have hstep : markEvent s a = insert a s := markEvent_of_card_le s a hcard
    have hunion : insert a s ∪ t.toFinset = s ∪ (a :: t).toFinset := by
      rw [List.toFinset_cons, Finset.insert_union, Finset.union_insert]
    calc (a :: t).foldl markEvent s = t.foldl markEvent (markEvent s a) := rfl
      _ = t.foldl markEvent (insert a s) := by rw [hstep]
      _ = insert a s ∪ t.toFinset := ih _ (by rw [hunion]; exact h)
      _ = s ∪ (a :: t).toFinset := hunion

theorem foldl_markEvent_range_1000 :
    (List.range 1000).foldl markEvent (∅ : Finset ℕ) = (List.range 1000).toFinset := by
  have hcard : ((List.range 1000).toFinset).card = 1000 := by
    rw [List.toFinset_card_of_nodup (List.nodup_range 1000), List.length_range]
  have h : ((∅ : Finset ℕ) ∪ (List.range 1000).toFinset).card ≤ 1000 := by
    rw [Finset.empty_union, hcard]
  rw [foldl_markEvent_of_card_le _ _ h, Finset.empty_union]

theorem foldl_markEvent_range_1001 :
    (List.range 1001).foldl markEvent (∅ : Finset ℕ) = ∅ := by
  have hsplit : List.range 1001 = List.range 1000 ++ [1000] := List.range_succ 1000
  rw [hsplit, List.foldl_append, foldl_markEvent_range_1000]
  have hnot : (1000 : ℕ) ∉ (List.range 1000).toFinset := by
    simp [List.mem_toFinset, List.mem_range]
  have hcard : (insert 1000 ((List.range 1000).toFinset)).card = 1001 := by
    rw [Finset.card_insert_of_not_mem hnot,
      List.toFinset_card_of_nodup (List.nodup_range 1000), List.length_range]
  simp only [List.foldl_cons, List.foldl_nil, markEvent, hcard]
  norm_num

/-!
## Prompt extraction

`slack_bot.py` lines 182-188:
```
def extract_prompt_from_message(text, bot_user_id):
    text = re.sub(f'<@{bot_user_id}>', '', text)
    text = ' '.join(text.split())
    return text.strip()
```
-/

/-- Match a literal character sequence at the start of `s`; on success return
the remainder. (The building block for literal regex matching.) -/
def dropLit : List Char → List Char → Option (List Char)
  | [], s => some s
  | _ :: _, [] => none
  | p :: ps, c :: cs => if c = p then dropLit ps cs else none

theorem dropLit_length_le : ∀ (lit s r : List Char), dropLit lit s = some r →
    r.length ≤ s.length := by
  intro lit
  induction lit with
  | nil => intro s r h; cases h; simp
  | cons p ps ih =>
    intro s r h
    cases s with
    | nil => cases h
    | cons c cs =>
      by_cases hc : c = p
      · simp only [dropLit, if_pos hc] at h
        exact le_trans (ih cs r h) (Nat.le_succ _)
      · simp [dropLit, hc] at h

theorem dropLit_eq_append : ∀ (lit s r : List Char), dropLit lit s = some r →
    s = lit ++ r := by
  intro lit
  induction lit with
  | nil => intro s r h; cases h; rfl
  | cons p ps ih =>
    intro s r h
    cases s with
    | nil => cases h
    | cons c cs =>
      by_cases hc : c = p
      · simp only [dropLit, if_pos hc] at h
        simp [hc, ih cs r h]
      · simp [dropLit, hc] at h

theorem dropLit_of_append (lit r : List Char) : dropLit lit (lit ++ r) = some r := by
  induction lit with
  | nil => rfl
  | cons p ps ih => simp [dropLit, ih]

/-- Fuel-bounded kernel of `removeTok`; each step consumes at least one
character, so any fuel of at least the list's length gives the untruncated
result. (Structural recursion on the fuel keeps the function computable by
the kernel.) -/
def removeTokAux (p : Char) (ps : List Char) : Nat → List Char → List Char
  | 0, s => s
  | _ + 1, [] => []
  | n + 1, c :: rest =>
    if c = p then
      match dropLit ps rest with
      | some r => removeTokAux p ps n r
      | none => c :: removeTokAux p ps n rest
    else c :: removeTokAux p ps n rest

/-- `re.sub(f'<@{bot_user_id}>', '', text)` for a metacharacter-free bot id:
remove every (leftmost, non-overlapping) occurrence of the literal token
`p :: ps` from the character list. -/
def removeTok (p : Char) (ps : List Char) (s : List Char) : List Char :=
  removeTokAux p ps s.length s

/-- The first character of a list is Python whitespace. -/
def headWS : List Char → Bool
  | [] => false
  | c :: _ => isPyWS c

/-- Python `str.split()` (no separator argument): the maximal whitespace-free
runs of the string, leading/trailing/repeated whitespace discarded. -/
def pySplit : List Char → List (List Char)
  | [] => []
  | c :: rest =>
    if isPyWS c then pySplit rest
    else if headWS rest then [c] :: pySplit rest
    else
      match pySplit rest with
      | [] => [[c]]
      | w :: ws => (c :: w) :: ws

/-- Python `' '.join(words)`. -/
def joinSp : List (List Char) → List Char
  | [] => []
  | [w] => w
  | w :: ws => w ++ ' ' :: joinSp ws

/-- Remove trailing Python whitespace (the right half of `str.strip()`). -/
def dropEndWS (l : List Char) : List Char :=
  (l.reverse.dropWhile isPyWS).reverse

/-- Python `str.strip()` (no argument): remove leading and trailing
whitespace. -/
def pyStrip (l : List Char) : List Char :=
  dropEndWS (l.dropWhile isPyWS)

/-- The mention token `f'<@{bot_user_id}>'` as a character list. -/
def mentionTok (bot_user_id : String) : List Char :=
  '@' :: (bot_user_id.data ++ ['>'])

/-- `extract_prompt_from_message` from `slack_bot.py` (lines 182-188):
remove the bot-mention token, then `' '.join(text.split())`, then
`.strip()`. -/
def extract_prompt_from_message (text bot_user_id : String) : String :=
  String.mk (pyStrip (joinSp (pySplit (removeTok '<' (mentionTok bot_user_id) text.data))))

/-- Modelled from the spec (§4.3) for the refinement claim: "remove every
occurrence of the bot-mention token for that identifier, collapse runs of
whitespace to single spaces, and trim leading/trailing whitespace."
Collapse each maximal run of whitespace characters to one space. -/
def collapseWS : List Char → List Char
  | [] => []
  | [c] => if isPyWS c then [' '] else [c]
  | c :: d :: t =>
    if isPyWS c then
      if isPyWS d then collapseWS (d :: t)
      else ' ' :: collapseWS (d :: t)
    else c :: collapseWS (d :: t)

/-- Modelled from the spec (§4.3): the spec-side description of prompt
extraction, to be compared with `extract_prompt_from_message`. -/
def extract_prompt_spec (text bot_user_id : String) : String :=
  String.mk (pyStrip (collapseWS (removeTok '<' (mentionTok bot_user_id) text.data)))

theorem pySplit_cons (c : Char) (rest : List Char) :
    pySplit (c :: rest) =
      if isPyWS c then pySplit rest
      else if headWS rest then [c] :: pySplit rest
      else
        match pySplit rest with
        | [] => [[c]]
        | w :: ws => (c :: w) :: ws := rfl

theorem pySplit_ws {c : Char} (rest : List Char) (h : isPyWS c = true) :
    pySplit (c :: rest) = pySplit rest := by
  rw [pySplit_cons, if_pos h]

theorem pySplit_nws_hws {c : Char} (rest : List Char) (hc : isPyWS c = false)
    (hh : headWS rest = true) : pySplit (c :: rest) = [c] :: pySplit rest := by
  rw [pySplit_cons, if_neg (by simp [hc]), if_pos hh]

theorem pySplit_nws_nil {c : Char} (rest : List Char) (hc : isPyWS c = false)
    (hh : headWS rest = false) (h : pySplit rest = []) :
    pySplit (c :: rest) = [[c]] := by
  rw [pySplit_cons, if_neg (by simp [hc]), if_neg (by simp [hh]), h]

theorem pySplit_nws_cons {c : Char} (rest : List Char) (hc : isPyWS c = false)
    (hh : headWS rest = false) {w0 : List Char} {ws0 : List (List Char)}
    (h : pySplit rest = w0 :: ws0) :
    pySplit (c :: rest) = (c :: w0) :: ws0 := by
  rw [pySplit_cons, if_neg (by simp [hc]), if_neg (by simp [hh]), h]

theorem pySplit_cons_nws {d : Char} (t : List Char) (hd : isPyWS d = false) :
    ∃ w ws, pySplit (d :: t) = (d :: w) :: ws := by
  by_cases hh : headWS t = true
  · exact ⟨[], pySplit t, pySplit_nws_hws t hd hh⟩
  · rw [Bool.not_eq_true] at hh
    rcases h : pySplit t with _ | ⟨w', ws'⟩
    · exact ⟨[], [], pySplit_nws_nil t hd hh h⟩
    · exact ⟨w', ws', pySplit_nws_cons t hd hh h⟩

theorem pySplit_clean : ∀ l : List Char, ∀ w ∈ pySplit l,
    w ≠ [] ∧ ∀ c ∈ w, isPyWS c = false := by
  intro l
  induction l with
  | nil => intro w hw; simp [pySplit] at hw
  | cons c rest ih =>
    intro w hw
    by_cases hc : isPyWS c = true
    · rw [pySplit_ws rest hc] at hw
      exact ih w hw
    · rw [Bool.not_eq_true] at hc
      by_cases hh : headWS rest = true
      · rw [pySplit_nws_hws rest hc hh] at hw
        rcases List.mem_cons.mp hw with rfl | hw
        · refine ⟨by simp, ?_⟩
          intro x hx
          simp at hx
          simpa [hx] using hc
        · exact ih w hw
      · rw [Bool.not_eq_true] at hh
        rcases h : pySplit rest with _ | ⟨w', ws'⟩
        · rw [pySplit_nws_nil rest hc hh h] at hw
          simp at hw
          subst hw
          refine ⟨by simp, ?_⟩
          intro x hx
          simp at hx
          simpa [hx] using hc
        · rw [pySplit_nws_cons rest hc hh h] at hw
          rcases List.mem_cons.mp hw with rfl | hw
          · have hmem : w' ∈ pySplit rest := by rw [h]; exact List.mem_cons_self _ _
            rcases ih w' hmem with ⟨-, hcl⟩
            refine ⟨by simp, ?_⟩
            intro x hx
            rcases List.mem_cons.mp hx with rfl | hx
            · exact hc
            · exact hcl x hx
          · have hmem : w ∈ pySplit rest := by rw [h]; exact List.mem_cons_of_mem _ hw
            exact ih w hmem

theorem joinSp_cons {w : List Char} {ws : List (List Char)} (h : ws ≠ []) :
    joinSp (w :: ws) = w ++ ' ' :: joinSp ws := by
  cases ws with
  | nil => exact absurd rfl h
  | cons v vs => rfl

theorem joinSp_cons_head (c : Char) (w : List Char) (ws : List (List Char)) :
    joinSp ((c :: w) :: ws) = c :: joinSp (w :: ws) := by
  cases ws with
  | nil => rfl
  | cons v vs => simp [joinSp]

theorem joinSp_ne_nil {w : List Char} {ws : List (List Char)} (hw : w ≠ []) :
    joinSp (w :: ws) ≠ [] := by
  cases ws with
  | nil => simpa [joinSp] using hw
  | cons v vs => simp [joinSp]

theorem joinSp_pySplit_eq_nil {l : List Char} :
    joinSp (pySplit l) = [] ↔ pySplit l = [] := by
  constructor
  · intro h
    rcases hsp : pySplit l with _ | ⟨w, ws⟩
    · rfl
    · have hw : w ≠ [] := (pySplit_clean l w (by rw [hsp]; exact List.mem_cons_self _ _)).1
      rw [hsp] at h
      exact absurd h (joinSp_ne_nil hw)
  · intro h; rw [h]; rfl

theorem nws_head_of_dropWhile_self {p : Char → Bool} {a : Char} {t : List Char}
    (h : (a :: t).dropWhile p = a :: t) : p a = false := by
  by_cases hp : p a
  · rw [List.dropWhile_cons_of_pos hp] at h
    have hlen := congrArg List.length h
    have hle : (t.dropWhile p).length ≤ t.length :=
      (List.dropWhile_sublist p).length_le
    simp at hlen
    omega
  · simpa using hp

theorem dropEndWS_cons (a : Char) (x : List Char) :
    dropEndWS (a :: x) =
      if dropEndWS x = [] then (if isPyWS a then [] else [a]) else a :: dropEndWS x := by
  unfold dropEndWS
  rw [List.reverse_cons, List.dropWhile_append]
  have hrev : (x.reverse.dropWhile isPyWS).isEmpty = true ↔
      (x.reverse.dropWhile isPyWS).reverse = [] := by
    simp [List.isEmpty_iff]
  by_cases h : (x.reverse.dropWhile isPyWS).reverse = []
  · rw [if_pos (by simpa [List.isEmpty_iff] using (by simpa using h : x.reverse.dropWhile isPyWS = []))]
    rw [if_pos h]
    by_cases ha : isPyWS a
    · simp [List.dropWhile, ha]
    · simp [List.dropWhile, ha]
  · have h' : (x.reverse.dropWhile isPyWS).isEmpty = false := by
      rcases hh : x.reverse.dropWhile isPyWS with _ | ⟨b, y⟩
      · rw [hh] at h; simp at h
      · rfl
    rw [h', if_neg h]
    simp

theorem allClean_dropWhile {x : List Char} (h : ∀ c ∈ x, isPyWS c = false) :
    x.dropWhile isPyWS = x := by
  cases x with
  | nil => rfl
  | cons a t =>
    exact List.dropWhile_cons_of_neg (by simp [h a (List.mem_cons_self _ _)])

theorem rev_join_clean : ∀ L : List (List Char),
    (∀ w ∈ L, w ≠ [] ∧ ∀ c ∈ w, isPyWS c = false) →
    (joinSp L).reverse.dropWhile isPyWS = (joinSp L).reverse := by
  intro L
  induction L with
  | nil => intro _; rfl
  | cons w ws ih =>
    intro hcl
    cases ws with
    | nil =>
      refine allClean_dropWhile ?_
      intro c hc
      exact (hcl w (List.mem_cons_self _ _)).2 c (by simpa using hc)
    | cons v vs =>
      have hrest : (joinSp (v :: vs)).reverse.dropWhile isPyWS = (joinSp (v :: vs)).reverse :=
        ih fun u hu => hcl u (List.mem_cons_of_mem _ hu)
      have hne : joinSp (v :: vs) ≠ [] :=
        joinSp_ne_nil (hcl v (List.mem_cons_of_mem _ (List.mem_cons_self _ _))).1
      have hrne : (joinSp (v :: vs)).reverse ≠ [] := by
        simpa using hne
      rcases hr : (joinSp (v :: vs)).reverse with _ | ⟨b, y⟩
      · exact absurd hr hrne
      · have hb : isPyWS b = false := nws_head_of_dropWhile_self (by rw [← hr]; exact hrest)
        rw [joinSp_cons (by simp : (v :: vs : List (List Char)) ≠ [])]
        rw [List.reverse_append, List.reverse_cons, hr]
        simp only [List.cons_append, List.append_assoc]
        exact List.dropWhile_cons_of_neg (by simp [hb])

theorem strip_join_split (l : List Char) :
    pyStrip (joinSp (pySplit l)) = joinSp (pySplit l) := by
  rcases hsp : pySplit l with _ | ⟨w, ws⟩
  · simp [pyStrip, dropEndWS, joinSp]
  · have hcl := pySplit_clean l
    rw [hsp] at hcl
    have hw := hcl w (List.mem_cons_self _ _)
    rcases hw with ⟨hwne, hwcl⟩
    rcases w with _ | ⟨a, w'⟩
    · exact absurd rfl hwne
    · have ha : isPyWS a = false := hwcl a (List.mem_cons_self _ _)
      have hhead : ∃ z, joinSp ((a :: w') :: ws) = a :: z := by
        cases ws with
        | nil => exact ⟨w', rfl⟩
        | cons v vs => exact ⟨w' ++ ' ' :: joinSp (v :: vs), by simp [joinSp]⟩
      rcases hhead with ⟨z, hz⟩
      unfold pyStrip
      rw [hz, List.dropWhile_cons_of_neg (by simp [ha]), ← hz]
      unfold dropEndWS
      rw [rev_join_clean _ hcl, List.reverse_reverse]

theorem collapseWS_cons_nws {c : Char} (t : List Char) (h : isPyWS c = false) :
    collapseWS (c :: t) = c :: collapseWS t := by
  cases t with
  | nil => simp [collapseWS, h]
  | cons d t' => simp [collapseWS, h]

theorem collapseWS_cons_ws {c : Char} (t : List Char) (h : isPyWS c = true) :
    collapseWS (c :: t) = if headWS t then collapseWS t else ' ' :: collapseWS t := by
  cases t with
  | nil => simp [collapseWS, headWS, h]
  | cons d t' =>
    by_cases hd : isPyWS d = true
    · simp [collapseWS, headWS, h, hd]
    · rw [Bool.not_eq_true] at hd
      simp [collapseWS, headWS, h, hd]

theorem dropEnd_collapse : ∀ s : List Char,
    dropEndWS (collapseWS s) =
      if headWS s = true ∧ joinSp (pySplit s) ≠ [] then ' ' :: joinSp (pySplit s)
      else joinSp (pySplit s) := by
  intro s
  induction s with
  | nil => simp [collapseWS, dropEndWS, pySplit, joinSp, headWS]
  | cons c rest ih =>
    by_cases hc : isPyWS c = true
    · have hhd : headWS (c :: rest) = true := by simp [headWS, hc]
      have hJ : joinSp (pySplit (c :: rest)) = joinSp (pySplit rest) := by
        rw [pySplit_ws rest hc]
      rw [collapseWS_cons_ws rest hc]
      by_cases h1 : headWS rest = true
      · rw [if_pos h1, ih, hJ, hhd, h1]
      · have hcond : ¬ (headWS rest = true ∧ joinSp (pySplit rest) ≠ []) :=
          fun hx => h1 hx.1
        rw [if_neg h1, dropEndWS_cons, ih, if_neg hcond, hJ, hhd]
        by_cases hJr : joinSp (pySplit rest) = []
        · rw [if_pos hJr, hJr]
          simp [isPyWS]
        · rw [if_neg hJr, if_pos ⟨rfl, hJr⟩]
    · rw [Bool.not_eq_true] at hc
      have hhd : headWS (c :: rest) = false := by simp [headWS, hc]
      have hcond : ¬ (headWS (c :: rest) = true ∧ joinSp (pySplit (c :: rest)) ≠ []) := by
        rw [hhd]; rintro ⟨h, -⟩; cases h
      rw [collapseWS_cons_nws rest hc, dropEndWS_cons, ih, if_neg hcond]
      by_cases hh : headWS rest = true
      · by_cases hJr : joinSp (pySplit rest) = []
        · have hsp : pySplit rest = [] := joinSp_pySplit_eq_nil.mp hJr
          have hE : (if headWS rest = true ∧ joinSp (pySplit rest) ≠ []
              then ' ' :: joinSp (pySplit rest) else joinSp (pySplit rest)) = [] := by
            rw [if_neg (fun hx => hx.2 hJr)]; exact hJr
          rw [hE, if_pos rfl, pySplit_nws_hws rest hc hh, hsp]
          simp [joinSp, hc]
        · have hsp : pySplit rest ≠ [] := fun hx => hJr (by rw [hx]; rfl)
          have hE : (if headWS rest = true ∧ joinSp (pySplit rest) ≠ []
              then ' ' :: joinSp (pySplit rest) else joinSp (pySplit rest)) =
              ' ' :: joinSp (pySplit rest) := if_pos ⟨hh, hJr⟩
          rw [hE, if_neg (by simp : ¬(' ' :: joinSp (pySplit rest) = []))]
          rw [pySplit_nws_hws rest hc hh, joinSp_cons hsp]
          simp
      · rw [Bool.not_eq_true] at hh
        have hcond2 : ¬ (headWS rest = true ∧ joinSp (pySplit rest) ≠ []) := by
          rw [hh]; rintro ⟨h, -⟩; cases h
        rw [if_neg hcond2]
        by_cases hJr : joinSp (pySplit rest) = []
        · have hsp : pySplit rest = [] := joinSp_pySplit_eq_nil.mp hJr
          rw [hJr, if_pos rfl, pySplit_nws_nil rest hc hh hsp]
          simp [joinSp, hc]
        · have hsp : pySplit rest ≠ [] := fun hx => hJr (by rw [hx]; rfl)
          rcases hps : pySplit rest with _ | ⟨w0, ws0⟩
          · exact absurd hps hsp
          · have hJr' : ¬ joinSp (w0 :: ws0) = [] := hps ▸ hJr
            rw [if_neg hJr', pySplit_nws_cons rest hc hh hps, joinSp_cons_head]

theorem dropWhile_collapse : ∀ s : List Char,
    (collapseWS s).dropWhile isPyWS = collapseWS (s.dropWhile isPyWS) := by
  intro s
  induction s with
  | nil => rfl
  | cons c rest ih =>
    by_cases hc : isPyWS c = true
    · rw [collapseWS_cons_ws rest hc, List.dropWhile_cons_of_pos hc]
      by_cases h1 : headWS rest = true
      · rw [if_pos h1]; exact ih
      · rw [if_neg h1, List.dropWhile_cons_of_pos (by decide : isPyWS ' ' = true)]
        exact ih
    · rw [Bool.not_eq_true] at hc
      rw [collapseWS_cons_nws rest hc,
        List.dropWhile_cons_of_neg (by simp [hc]),
        List.dropWhile_cons_of_neg (by simp [hc]),
        collapseWS_cons_nws rest hc]

theorem pySplit_dropWhile : ∀ s : List Char,
    pySplit (s.dropWhile isPyWS) = pySplit s := by
  intro s
  induction s with
  | nil => rfl
  | cons c rest ih =>
    by_cases hc : isPyWS c = true
    · rw [List.dropWhile_cons_of_pos hc, pySplit_ws rest hc]
      exact ih
    · rw [List.dropWhile_cons_of_neg (by simp [hc])]

theorem headWS_dropWhile (s : List Char) : headWS (s.dropWhile isPyWS) = false := by
  induction s with
  | nil => rfl
  | cons c rest ih =>
    by_cases hc : isPyWS c = true
    · rw [List.dropWhile_cons_of_pos hc]; exact ih
    · rw [List.dropWhile_cons_of_neg (by simp [hc])]
      simpa [headWS] using hc

/-- The heart of the extraction refinement: Python's
`' '.join(text.split())` equals "collapse whitespace runs then trim",
after a final `strip` on each side. -/
theorem join_split_eq_strip_collapse (l : List Char) :
    pyStrip (joinSp (pySplit l)) = pyStrip (collapseWS l) := by
  have hrhs : pyStrip (collapseWS l) = joinSp (pySplit l) := by
    unfold pyStrip
    rw [dropWhile_collapse, dropEnd_collapse]
    have hhd : headWS (l.dropWhile isPyWS) = false := headWS_dropWhile l
    rw [if_neg (by rw [hhd]; rintro ⟨h, -⟩; cases h), pySplit_dropWhile]
  rw [hrhs, strip_join_split]

/-- The code's prompt extraction coincides with the spec's description of it
on every input. -/
theorem extract_eq_extract_spec (text bot_user_id : String) :
    extract_prompt_from_message text bot_user_id = extract_prompt_spec text bot_user_id := by
  unfold extract_prompt_from_message extract_prompt_spec
  rw [join_split_eq_strip_collapse]

/-!
## Age derivation and prompt enhancement

`slack_bot.py` lines 51-63:
```
age_match = re.search(r'(\d+)[-\s]?year[-\s]?old', user_prompt.lower())
age = age_match.group(1) if age_match else "5"
enhanced = f"A vintage photograph of {TRIGGER_WORD} as a {age}-year-old
child, {user_prompt}, realistic childhood photo, natural lighting, candid
moment, high quality"
```
The regex is modelled by an explicit leftmost scanner: at each start
position the greedy `(\d+)` can only be the maximal digit run (the
character after a shorter run would be a digit, which matches neither
`[-\s]` nor `y`), so `tryAgeAt` takes the maximal run and then matches
`[-\s]?year[-\s]?old`, trying the separator-consuming alternative first
exactly as the regex engine does.
-/

/-- The literal `year` of the age regex. -/
def yearL : List Char := ['y', 'e', 'a', 'r']

/-- The literal `old` of the age regex. -/
def oldL : List Char := ['o', 'l', 'd']

/-- Match `[-\s]?old` at the start of `s`. -/
def matchOld (s : List Char) : Bool :=
  match s with
  | c :: r =>
    if sepChar c then (dropLit oldL r).isSome || (dropLit oldL s).isSome
    else (dropLit oldL s).isSome
  | [] => false

/-- Match `year[-\s]?old` at the start of `s`. -/
def yearThen (s : List Char) : Bool :=
  match dropLit yearL s with
  | some t => matchOld t
  | none => false

/-- Match `[-\s]?year[-\s]?old` at the start of `s`. -/
def matchYO (s : List Char) : Bool :=
  match s with
  | c :: r => if sepChar c then yearThen r || yearThen s else yearThen s
  | [] => false

/-- Attempt the age regex anchored at the start of `s`: a nonempty maximal
digit run followed by `[-\s]?year[-\s]?old`; on success return the digit
group. -/
def tryAgeAt (s : List Char) : Option (List Char) :=
  let ds := s.takeWhile Char.isDigit
  if ds = [] then none
  else if matchYO (s.dropWhile Char.isDigit) then some ds else none

/-- `re.search` for the age regex: scan start positions left to right and
return the digit group of the first match. -/
def findAge : List Char → Option (List Char)
  | [] => none
  | c :: rest =>
    match tryAgeAt (c :: rest) with
    | some d => some d
    | none => findAge rest

/-- `user_prompt.lower()` (ASCII case folding, which is all the pattern's
letters need). -/
def pyLower (s : String) : List Char :=
  s.data.map Char.toLower

/-- The `age` variable of `enhance_prompt`: the regex group on the lowercased
prompt, with the hard-coded fallback `"5"`. -/
def derivedAge (user_prompt : String) : String :=
  match findAge (pyLower user_prompt) with
  | some d => String.mk d
  | none => "5"

/-- `enhance_prompt` from `slack_bot.py` (lines 51-63); the trigger word is
the environment-configured `TRIGGER_WORD`, passed as a parameter. -/
def enhance_prompt (trigger_word : String) (user_prompt : String) : String :=
  "A vintage photograph of " ++ trigger_word ++ " as a " ++ derivedAge user_prompt ++
    "-year-old child, " ++ user_prompt ++
    ", realistic childhood photo, natural lighting, candid moment, high quality"

/-- An optional single separator matched by `[-\s]?`. -/
def optSep (l : List Char) : Prop :=
  l = [] ∨ ∃ c, sepChar c = true ∧ l = [c]

/-- The age regex matches at the very start of `t` with digit group `d`:
`t` decomposes as the nonempty digit run `d`, then `[-\s]?`, then `year`,
then `[-\s]?`, then `old`, then anything. -/
def ageMatch0 (t d : List Char) : Prop :=
  d ≠ [] ∧ (∀ c ∈ d, c.isDigit = true) ∧
    ∃ s1 s2 v, optSep s1 ∧ optSep s2 ∧ t = d ++ s1 ++ yearL ++ s2 ++ oldL ++ v

/-- The age regex matches at position `i` of `s` with digit group `d`. -/
def ageMatchAt (s : List Char) (i : ℕ) (d : List Char) : Prop :=
  ageMatch0 (s.drop i) d

theorem sep_not_digit {c : Char} (h : sepChar c = true) : c.isDigit = false := by
  simp only [sepChar, isPyWS, Bool.or_eq_true, decide_eq_true_eq] at h
  rcases h with h | ((((h | h) | h) | h) | h) | h <;> subst h <;> decide

theorem matchOld_iff (t : List Char) :
    matchOld t = true ↔ ∃ s2 v, optSep s2 ∧ t = s2 ++ oldL ++ v := by
  constructor
  · intro h
    cases t with
    | nil => simp [matchOld] at h
    | cons c r =>
      by_cases hsep : sepChar c = true
      · rw [matchOld, if_pos hsep, Bool.or_eq_true] at h
        rcases h with h | h
        · rcases Option.isSome_iff_exists.mp h with ⟨v, hv⟩
          exact ⟨[c], v, Or.inr ⟨c, hsep, rfl⟩, by
            rw [dropLit_eq_append oldL r v hv]; simp⟩
        · rcases Option.isSome_iff_exists.mp h with ⟨v, hv⟩
          exact ⟨[], v, Or.inl rfl, by
            rw [dropLit_eq_append oldL (c :: r) v hv]; simp⟩
      · rw [matchOld, if_neg hsep] at h
        rcases Option.isSome_iff_exists.mp h with ⟨v, hv⟩
        exact ⟨[], v, Or.inl rfl, by
          rw [dropLit_eq_append oldL (c :: r) v hv]; simp⟩
  · rintro ⟨s2, v, hsep, rfl⟩
    rcases hsep with rfl | ⟨c, hc, rfl⟩
    · simp only [List.nil_append]
      rw [show oldL ++ v = 'o' :: ('l' :: 'd' :: v) from rfl]
      rw [matchOld, if_neg (by decide : ¬ sepChar 'o' = true)]
      rw [show ('o' : Char) :: 'l' :: 'd' :: v = oldL ++ v from rfl, dropLit_of_append]
      rfl
    · rw [show [c] ++ oldL ++ v = c :: (oldL ++ v) from by simp]
      rw [matchOld, if_pos hc, dropLit_of_append]
      rfl

theorem yearThen_iff (s : List Char) :
    yearThen s = true ↔ ∃ s2 v, optSep s2 ∧ s = yearL ++ s2 ++ oldL ++ v := by
  constructor
  · intro h
    rw [yearThen] at h
    rcases ht : dropLit yearL s with _ | t
    · rw [ht] at h; cases h
    · rw [ht] at h
      rcases (matchOld_iff t).mp h with ⟨s2, v, hsep, rfl⟩
      exact ⟨s2, v, hsep, by rw [dropLit_eq_append yearL s _ ht]; simp⟩
  · rintro ⟨s2, v, hsep, rfl⟩
    rw [yearThen]
    rw [show yearL ++ s2 ++ oldL ++ v = yearL ++ (s2 ++ oldL ++ v) from by simp,
      dropLit_of_append]
    exact (matchOld_iff _).mpr ⟨s2, v, hsep, by simp⟩

theorem matchYO_iff (s : List Char) :
    matchYO s = true ↔
      ∃ s1 s2 v, optSep s1 ∧ optSep s2 ∧ s = s1 ++ yearL ++ s2 ++ oldL ++ v := by
  constructor
  · intro h
    cases s with
    | nil => simp [matchYO] at h
    | cons c r =>
      by_cases hsep : sepChar c = true
      · rw [matchYO, if_pos hsep, Bool.or_eq_true] at h
        rcases h with h | h
        · rcases (yearThen_iff r).mp h with ⟨s2, v, hs2, rfl⟩
          exact ⟨[c], s2, v, Or.inr ⟨c, hsep, rfl⟩, hs2, by simp⟩
        · rcases (yearThen_iff (c :: r)).mp h with ⟨s2, v, hs2, heq⟩
          exact ⟨[], s2, v, Or.inl rfl, hs2, by simpa using heq⟩
      · rw [matchYO, if_neg hsep] at h
        rcases (yearThen_iff (c :: r)).mp h with ⟨s2, v, hs2, heq⟩
        exact ⟨[], s2, v, Or.inl rfl, hs2, by simpa using heq⟩
  · rintro ⟨s1, s2, v, hs1, hs2, rfl⟩
    rcases hs1 with rfl | ⟨c, hc, rfl⟩
    · simp only [List.nil_append]
      rw [show yearL ++ s2 ++ oldL ++ v = 'y' :: ('e' :: 'a' :: 'r' :: (s2 ++ oldL ++ v))
        from by simp [yearL]]
      rw [matchYO, if_neg (by decide : ¬ sepChar 'y' = true)]
      have : yearThen ('y' :: 'e' :: 'a' :: 'r' :: (s2 ++ oldL ++ v)) = true :=
        (yearThen_iff _).mpr ⟨s2, v, hs2, by simp [yearL]⟩
      exact this
    · rw [show [c] ++ yearL ++ s2 ++ oldL ++ v = c :: (yearL ++ s2 ++ oldL ++ v) from by simp]
      rw [matchYO, if_pos hc]
      have : yearThen (yearL ++ s2 ++ oldL ++ v) = true :=
        (yearThen_iff _).mpr ⟨s2, v, hs2, by simp⟩
      rw [this]
      simp

theorem headDigit_tail_false {s1 s2 v : List Char} (hs1 : optSep s1) :
    (s1 ++ yearL ++ s2 ++ oldL ++ v).takeWhile Char.isDigit = [] ∧
      (s1 ++ yearL ++ s2 ++ oldL ++ v).dropWhile Char.isDigit =
        s1 ++ yearL ++ s2 ++ oldL ++ v := by
  rcases hs1 with rfl | ⟨c, hc, rfl⟩
  · constructor
    · rw [show ([] : List Char) ++ yearL ++ s2 ++ oldL ++ v =
        'y' :: ('e' :: 'a' :: 'r' :: (s2 ++ oldL ++ v)) from by simp [yearL]]
      exact List.takeWhile_cons_of_neg (by decide)
    · rw [show ([] : List Char) ++ yearL ++ s2 ++ oldL ++ v =
        'y' :: ('e' :: 'a' :: 'r' :: (s2 ++ oldL ++ v)) from by simp [yearL]]
      exact List.dropWhile_cons_of_neg (by decide)
  · have hcd : ¬ (Char.isDigit c = true) := by simp [sep_not_digit hc]
    constructor
    · rw [show [c] ++ yearL ++ s2 ++ oldL ++ v = c :: (yearL ++ s2 ++ oldL ++ v) from by simp]
      exact List.takeWhile_cons_of_neg hcd
    · rw [show [c] ++ yearL ++ s2 ++ oldL ++ v = c :: (yearL ++ s2 ++ oldL ++ v) from by simp]
      exact List.dropWhile_cons_of_neg hcd

theorem tryAgeAt_some_iff (s : List Char) (d : List Char) :
    tryAgeAt s = some d ↔ ageMatch0 s d := by
  constructor
  · intro h
    rw [tryAgeAt] at h
    by_cases hds : s.takeWhile Char.isDigit = []
    · rw [if_pos hds] at h; cases h
    · rw [if_neg hds] at h
      by_cases hyo : matchYO (s.dropWhile Char.isDigit) = true
      · rw [if_pos hyo] at h
        cases h
        refine ⟨hds, fun c hc => List.mem_takeWhile_imp hc, ?_⟩
        rcases (matchYO_iff _).mp hyo with ⟨s1, s2, v, hs1, hs2, hdec⟩
        exact ⟨s1, s2, v, hs1, hs2, by
          conv_lhs => rw [← List.takeWhile_append_dropWhile Char.isDigit s]
          rw [hdec]; simp⟩
      · rw [if_neg hyo] at h; cases h
  · rintro ⟨hne, hdig, s1, s2, v, hs1, hs2, rfl⟩
    have htail := @headDigit_tail_false s1 s2 v hs1
    have htake : (d ++ (s1 ++ yearL ++ s2 ++ oldL ++ v)).takeWhile Char.isDigit = d := by
      rw [List.takeWhile_append_of_pos (fun c hc => hdig c hc), htail.1, List.append_nil]
    have hdrop : (d ++ (s1 ++ yearL ++ s2 ++ oldL ++ v)).dropWhile Char.isDigit =
        s1 ++ yearL ++ s2 ++ oldL ++ v := by
      rw [List.dropWhile_append_of_pos (fun c hc => hdig c hc), htail.2]
    rw [tryAgeAt]
    simp only [show d ++ s1 ++ yearL ++ s2 ++ oldL ++ v =
      d ++ (s1 ++ yearL ++ s2 ++ oldL ++ v) from by simp] at *
    rw [htake, hdrop, if_neg hne, if_pos ((matchYO_iff _).mpr ⟨s1, s2, v, hs1, hs2, rfl⟩)]

theorem ageMatch0_nil (d : List Char) : ¬ ageMatch0 [] d := by
  rintro ⟨hne, -, s1, s2, v, -, -, heq⟩
  have := congrArg List.length heq
  simp [yearL, oldL] at this
  omega

theorem tryAgeAt_none {s : List Char} (h : tryAgeAt s = none) :
    ∀ d, ¬ ageMatch0 s d := by
  intro d hm
  rw [(tryAgeAt_some_iff s d).mpr hm] at h
  cases h

theorem findAge_none : ∀ s : List Char, findAge s = none →
    ∀ i d, ¬ ageMatchAt s i d := by
  intro s
  induction s with
  | nil => intro _ i d; simpa [ageMatchAt] using ageMatch0_nil d
  | cons c rest ih =>
    intro h i d
    have hsplit : tryAgeAt (c :: rest) = none ∧ findAge rest = none := by
      rw [findAge] at h
      rcases ht : tryAgeAt (c :: rest) with _ | d0
      · rw [ht] at h; exact ⟨rfl, h⟩
      · rw [ht] at h; cases h
    cases i with
    | zero => exact fun hm => tryAgeAt_none hsplit.1 d (by simpa [ageMatchAt] using hm)
    | succ j => exact fun hm => ih hsplit.2 j d (by simpa [ageMatchAt] using hm)

theorem findAge_some : ∀ s : List Char, ∀ d, findAge s = some d →
    ∃ i, ageMatchAt s i d ∧ ∀ j d', j < i → ¬ ageMatchAt s j d' := by
  intro s
  induction s with
  | nil => intro d h; cases h
  | cons c rest ih =>
    intro d h
    rw [findAge] at h
    rcases ht : tryAgeAt (c :: rest) with _ | d0
    · rw [ht] at h
      rcases ih d h with ⟨i, hi, hmin⟩
      refine ⟨i + 1, by simpa [ageMatchAt] using hi, ?_⟩
      intro j d' hj
      cases j with
      | zero => exact fun hm => tryAgeAt_none ht d' (by simpa [ageMatchAt] using hm)
      | succ j' =>
        have hj' : j' < i := by omega
        exact fun hm => hmin j' d' hj' (by simpa [ageMatchAt] using hm)
    · rw [ht] at h
      cases h
      exact ⟨0, by simpa [ageMatchAt] using (tryAgeAt_some_iff _ _).mp ht,
        fun j d' hj => absurd hj (Nat.not_lt_zero j)⟩

theorem findAge_of_min : ∀ (s : List Char) (i : ℕ) (d : List Char),
    ageMatchAt s i d → (∀ j d', j < i → ¬ ageMatchAt s j d') →
    findAge s = some d := by
  intro s
  induction s with
  | nil => intro i d hm _; exact absurd (by simpa [ageMatchAt] using hm) (ageMatch0_nil d)
  | cons c rest ih =>
    intro i d hm hmin
    cases i with
    | zero =>
      have : tryAgeAt (c :: rest) = some d :=
        (tryAgeAt_some_iff _ _).mpr (by simpa [ageMatchAt] using hm)
      rw [findAge, this]
    | succ i' =>
      have ht : tryAgeAt (c :: rest) = none := by
        rcases h0 : tryAgeAt (c :: rest) with _ | d0
        · rfl
        · exact absurd (by simpa [ageMatchAt] using (tryAgeAt_some_iff _ _).mp h0)
            (hmin 0 d0 (Nat.succ_pos i'))
      rw [findAge, ht]
      refine ih i' d (by simpa [ageMatchAt] using hm) ?_
      intro j d' hj hm'
      exact hmin (j + 1) d' (by omega) (by simpa [ageMatchAt] using hm')

/-!
## Generation orchestrator

`slack_bot.py` lines 66-105 (`generate_image`): build the input parameters,
call `replicate.run`, and normalise the heterogeneous output shape into one
image URL.  A Replicate output value is either a list of items or a single
item; an item either exposes a `.url` attribute, or is a Python `str`, or is
something else (carried with the string `str()` would print for it).
-/

/-- One element of a Replicate output (duck-typed in the Python). -/
inductive RepItem where
  | withUrl (url : String)
  | strVal (s : String)
  | otherVal (pyRepr : String)
deriving DecidableEq, Repr

/-- A Replicate output: `isinstance(output, list)` or a single value. -/
inductive RepOutput where
  | list (items : List RepItem)
  | single (item : RepItem)
deriving DecidableEq, Repr

/-- The `str()` rendering of an item (used by `str(first_output)` and by the
`f"Unexpected output format: {output}"` message). -/
def RepItem.pyStr : RepItem → String
  | .withUrl u => u
  | .strVal s => s
  | .otherVal r => r

/-- The `str()` rendering of a whole output. -/
def RepOutput.pyStr : RepOutput → String
  | .list items => "[" ++ String.intercalate ", " (items.map RepItem.pyStr) ++ "]"
  | .single item => item.pyStr

/-- The normalisation step of `generate_image` (lines 91-105): extract an
image URL from the output, or raise `Exception(f"Unexpected output format:
{output}")`. -/
def extractUrl (output : RepOutput) : Except String String :=
  match output with
  | .list (first_output :: _) =>
    match first_output with
    | .withUrl u => .ok u
    | .strVal s => .ok s
    | .otherVal r => .ok r
  | .list [] => .error ("Unexpected output format: " ++ (RepOutput.list []).pyStr)
  | .single (.withUrl u) => .ok u
  | .single (.strVal s) => .ok s
  | .single (.otherVal r) =>
    .error ("Unexpected output format: " ++ (RepOutput.single (.otherVal r)).pyStr)

/-- The environment-sourced configuration of `slack_bot.py` (lines 22-27)
that the generation path reads. -/
structure BotConfig where
  trigger_word : String
  lora_weights_url : Option String
  replicate_model : String
deriving DecidableEq, Repr

/-- The `input_params` mapping built by `generate_image` (lines 75-86);
`guidance_scale` is the exact rational 3.5. -/
structure GenInput where
  prompt : String
  num_outputs : ℕ
  aspect_ratio : String
  output_format : String
  guidance_scale : ℚ
  num_inference_steps : ℕ
  hf_lora : Option String
deriving DecidableEq, Repr

/-- Lines 75-86: the fixed parameter set around the enhanced prompt, plus
the optional LoRA weights reference. -/
def buildInputParams (cfg : BotConfig) (prompt : String) : GenInput :=
  { prompt := enhance_prompt cfg.trigger_word prompt
    num_outputs := 1
    aspect_ratio := "1:1"
    output_format := "webp"
    guidance_scale := 7 / 2
    num_inference_steps := 28
    hf_lora := cfg.lora_weights_url }

/-- `generate_image` (lines 66-105), with `replicate.run` abstracted as the
oracle `run` (which may itself raise, e.g. on network failure). -/
def generate_image (cfg : BotConfig)
    (run : String → GenInput → Except String RepOutput) (prompt : String) :
    Except String String :=
  match run cfg.replicate_model (buildInputParams cfg prompt) with
  | .error e => .error e
  | .ok output => extractUrl output

/-!
## JSON model and the webhook handler

The handler `slack_events` (lines 191-258) inspects the request body two
levels deep: the body itself must be a JSON object (`data.get(...)` raises
`AttributeError` otherwise), and the nested `event` value must be an object
whose fields the handler reads.  `JVal` models a JSON value to exactly that
depth: a primitive, an object of primitives (the `event`), or an array
(opaque: the handler never looks inside one, it only fails on it).  A raised
Python exception escaping the handler (Flask then answers HTTP 500) is
modelled as `Except.error`.
-/

/-- A primitive JSON value. -/
inductive JPrim where
  | str (s : String)
  | num (n : ℤ)
  | jbool (b : Bool)
  | null
deriving DecidableEq, Repr

/-- A JSON value, to the depth the handler inspects it. -/
inductive JVal where
  | prim (p : JPrim)
  | obj (fields : List (String × JPrim))
  | arr (size : ℕ)
deriving DecidableEq, Repr

/-- A request body: a JSON object, or some other JSON value (a list, a bare
string, `null`, ... — anything `request.json` can produce that is not a
`dict`). -/
inductive JBody where
  | obj (fields : List (String × JVal))
  | nonObj (v : JVal)
deriving DecidableEq, Repr

/-- First binding of a key in an association list (Python dicts have unique
keys, so this is dict lookup). -/
def lookupField {α : Type} (fields : List (String × α)) (k : String) : Option α :=
  (fields.find? (fun kv => kv.1 = k)).map (fun kv => kv.2)

/-- `data.get(k)`: `None` when the key is absent; raises `AttributeError`
when the receiver is not a dict. -/
def JBody.pyGet : JBody → String → Except String JVal
  | .obj fields, k => .ok ((lookupField fields k).getD (.prim .null))
  | .nonObj _, _ => .error "AttributeError: object has no attribute get"

/-- `data.get(k, default)`. -/
def JBody.pyGetD : JBody → String → JVal → Except String JVal
  | .obj fields, k, d => .ok ((lookupField fields k).getD d)
  | .nonObj _, _, _ => .error "AttributeError: object has no attribute get"

/-- `event.get(k)` on the nested event value. -/
def JVal.pyGetP : JVal → String → Except String JPrim
  | .obj fields, k => .ok ((lookupField fields k).getD .null)
  | _, _ => .error "AttributeError: object has no attribute get"

/-- `event.get(k, default)` on the nested event value. -/
def JVal.pyGetPD : JVal → String → JPrim → Except String JPrim
  | .obj fields, k, d => .ok ((lookupField fields k).getD d)
  | _, _, _ => .error "AttributeError: object has no attribute get"

/-- Python hashability of the modelled values: lists and dicts raise
`TypeError: unhashable type` when used in `x in set` / `set.add(x)`. -/
def hashable : JVal → Bool
  | .prim _ => true
  | .obj _ => false
  | .arr _ => false

/-- Python truthiness of a primitive (`event.get("thread_ts") or
event.get("ts")`). -/
def truthyP : JPrim → Bool
  | .str s => !(s == "")
  | .num n => !(n == 0)
  | .jbool b => b
  | .null => false

instance {ε α : Type} [DecidableEq ε] [DecidableEq α] : DecidableEq (Except ε α) :=
  fun x y =>
    match x, y with
    | .ok a, .ok b =>
      if h : a = b then isTrue (by rw [h]) else isFalse (by intro hh; cases hh; exact h rfl)
    | .error e, .error f =>
      if h : e = f then isTrue (by rw [h]) else isFalse (by intro hh; cases hh; exact h rfl)
    | .ok _, .error _ => isFalse (by intro hh; cases hh)
    | .error _, .ok _ => isFalse (by intro hh; cases hh)

/-- The usage hint posted when the extracted prompt is empty
(lines 238-246). -/
def usageHint : String :=
  "👋 Hi! Please describe the childhood photo you\x27d like to generate.\n\n" ++
  "Examples:\n" ++
  "• `@MemoryBot my 2-year-old self in a backyard`\n" ++
  "• `@MemoryBot my 5-year-old self on a beach`\n" ++
  "• `@MemoryBot my 10-year-old self in a classroom`"

/-- The response body of the webhook handler: the challenge echo
`jsonify({"challenge": ...})` or the generic `jsonify({"status": "ok"})`.
Both are HTTP 200. -/
inductive BotResponse where
  | challengeResp (c : JVal)
  | okResp
deriving DecidableEq, Repr

/-- A side effect requested by the synchronous handler path: post a message
to a thread, or start the background processing thread
(`threading.Thread(target=process_image_request, ...).start()`). -/
inductive BotAction where
  | postMessage (channel thread_ts : JPrim) (text : String)
  | dispatch (channel thread_ts : JPrim) (user_prompt : String)
deriving DecidableEq, Repr

/-- What one call of the handler produces when no exception escapes it. -/
structure HandlerResult where
  response : BotResponse
  newState : Finset JVal
  actions : List BotAction
deriving DecidableEq

/-- `slack_events` (lines 191-258).  `auth` is the `slack_client.auth_test()`
oracle: `some uid` when it returns a user id, `none` when it raises (the
bare `except` then substitutes `""`).  `st` is the `processed_events` set.
An `Except.error` is an uncaught Python exception (Flask answers 500). -/
def slack_events (auth : Option String) (st : Finset JVal) (data : JBody) :
    Except String HandlerResult :=
  match data.pyGet "type" with
  | .error e => .error e
  | .ok ty =>
  if ty = JVal.prim (.str "url_verification") then
    match data.pyGet "challenge" with
    | .error e => .error e
    | .ok ch => .ok ⟨.challengeResp ch, st, []⟩
  else if ty = JVal.prim (.str "event_callback") then
    match data.pyGetD "event" (JVal.obj []) with
    | .error e => .error e
    | .ok event =>
    match data.pyGet "event_id" with
    | .error e => .error e
    | .ok event_id =>
    if hashable event_id = false then .error "TypeError: unhashable type"
    else if event_id ∈ st then .ok ⟨.okResp, st, []⟩
    else
      let st1 := markEvent st event_id
      match event.pyGetP "type" with
      | .error e => .error e
      | .ok ety =>
      if ety = JPrim.str "app_mention" then
        match event.pyGetP "channel" with
        | .error e => .error e
        | .ok channel =>
        match event.pyGetP "thread_ts" with
        | .error e => .error e
        | .ok tts =>
        match event.pyGetP "ts" with
        | .error e => .error e
        | .ok ts =>
        let thread_ts := if truthyP tts then tts else ts
        match event.pyGetPD "text" (.str "") with
        | .error e => .error e
        | .ok text =>
        match text with
        | .str t =>
          let bot_user_id := match auth with | some uid => uid | none => ""
          let user_prompt := extract_prompt_from_message t bot_user_id
          if user_prompt = "" then
            .ok ⟨.okResp, st1, [.postMessage channel thread_ts usageHint]⟩
          else
            .ok ⟨.okResp, st1, [.dispatch channel thread_ts user_prompt]⟩
        | _ => .error "TypeError: expected string or bytes-like object"
      else .ok ⟨.okResp, st1, []⟩
  else .ok ⟨.okResp, st, []⟩

/-!
## Dispatched unit (`process_image_request`)

Lines 108-179: the background thread posts an acknowledgment, generates,
downloads and uploads, and converts any failure at any stage into a single
error message posted to the same thread.  The network and Slack calls are
oracles in `UnitEnv`; the unit's observable behaviour is its trace of
`UnitAction`s.  The model is a total function: the Python `except Exception`
boundary guarantees no exception escapes the unit.
-/

/-- The oracles a dispatched unit calls into. -/
structure UnitEnv where
  /-- `replicate.run(model, input=...)`. -/
  runModel : String → GenInput → Except String RepOutput
  /-- `download_image` (lines 108-112): `requests.get(url, timeout=60)`,
  `raise_for_status`, `.content` as bytes. -/
  download : String → Except String (List ℕ)
  /-- `slack_client.chat_postMessage`: `some err` when it raises
  `SlackApiError`. -/
  post : JPrim → JPrim → String → Option String
  /-- `slack_client.files_upload_v2`: `some err` when it raises
  `SlackApiError`. -/
  upload : JPrim → JPrim → List ℕ → String → Option String

/-- One observable action of a dispatched unit. -/
inductive UnitAction where
  | posted (channel thread_ts : JPrim) (text : String)
  | postSwallowed (channel thread_ts : JPrim) (text : String) (err : String)
  | uploaded (channel thread_ts : JPrim) (filename title comment : String)
deriving DecidableEq, Repr

/-- `send_slack_message` (lines 115-124): try to post; a `SlackApiError` is
caught and only printed. -/
def send_slack_message (env : UnitEnv) (channel thread_ts : JPrim)
    (text : String) : UnitAction :=
  match env.post channel thread_ts text with
  | none => .posted channel thread_ts text
  | some err => .postSwallowed channel thread_ts text err

/-- `upload_image_to_slack` (lines 127-142): on `SlackApiError` it prints and
re-raises, so a failure propagates to the caller. -/
def upload_image_to_slack (env : UnitEnv) (channel thread_ts : JPrim)
    (image_bytes : List ℕ) (prompt : String) : Except String UnitAction :=
  match env.upload channel thread_ts image_bytes prompt with
  | none => .ok (.uploaded channel thread_ts "childhood_memory.webp"
      "Your Childhood Memory"
      ("✨ Here\x27s your childhood memory: _" ++ prompt ++ "_"))
  | some err => .error err

/-- The acknowledgment posted before generation begins (lines 151-156). -/
def workingMsg : String :=
  "🎨 Creating your childhood memory... This may take 30-60 seconds."

/-- The error message posted by the unit's outer `except` boundary
(lines 171-179). -/
def errMsg (e : String) : String :=
  "❌ Sorry, I couldn\x27t generate that image. Error: " ++ e

/-- `process_image_request` (lines 145-179): the dispatched unit.  Returns
the trace of actions; the outer `except Exception` makes it total. -/
def process_image_request (cfg : BotConfig) (env : UnitEnv)
    (channel thread_ts : JPrim) (user_prompt : String) : List UnitAction :=
  let ack := send_slack_message env channel thread_ts workingMsg
  match generate_image cfg env.runModel user_prompt with
  | .error e => [ack, send_slack_message env channel thread_ts (errMsg e)]
  | .ok image_url =>
    match env.download image_url with
    | .error e => [ack, send_slack_message env channel thread_ts (errMsg e)]
    | .ok image_bytes =>
      match upload_image_to_slack env channel thread_ts image_bytes user_prompt with
      | .error e => [ack, send_slack_message env channel thread_ts (errMsg e)]
      | .ok act => [ack, act]

/-!
## Helper lemmas about the handler
-/

theorem slack_events_duplicate (auth : Option String) (st : Finset JVal)
    (data : JBody) (eid : JVal)
    (hty : data.pyGet "type" = .ok (JVal.prim (.str "event_callback")))
    (heid : data.pyGet "event_id" = .ok eid)
    (hh : hashable eid = true)
    (hmem : eid ∈ st) :
    slack_events auth st data = .ok ⟨.okResp, st, []⟩ := by
  cases data with
  | nonObj v => simp [JBody.pyGet] at hty
  | obj fields =>
    have hty' : (lookupField fields "type").getD (JVal.prim .null) =
        JVal.prim (.str "event_callback") := by
      simpa [JBody.pyGet] using hty
    have heid' : (lookupField fields "event_id").getD (JVal.prim .null) = eid := by
      simpa [JBody.pyGet] using heid
    simp only [slack_events, JBody.pyGet, JBody.pyGetD, hty', heid', hh, hmem]
    simp

theorem slack_events_app_mention (auth : Option String) (st : Finset JVal)
    (data : JBody) (eid ev : JVal) (ch tts ts : JPrim) (t : String)
    (hty : data.pyGet "type" = .ok (JVal.prim (.str "event_callback")))
    (hev : data.pyGetD "event" (JVal.obj []) = .ok ev)
    (heid : data.pyGet "event_id" = .ok eid)
    (hh : hashable eid = true)
    (hnew : eid ∉ st)
    (hety : ev.pyGetP "type" = .ok (.str "app_mention"))
    (hch : ev.pyGetP "channel" = .ok ch)
    (htt : ev.pyGetP "thread_ts" = .ok tts)
    (hts : ev.pyGetP "ts" = .ok ts)
    (htext : ev.pyGetPD "text" (.str "") = .ok (.str t)) :
    slack_events auth st data =
      (if extract_prompt_from_message t (match auth with | some uid => uid | none => "") = ""
       then .ok ⟨.okResp, markEvent st eid,
         [.postMessage ch (if truthyP tts then tts else ts) usageHint]⟩
       else .ok ⟨.okResp, markEvent st eid,
         [.dispatch ch (if truthyP tts then tts else ts)
           (extract_prompt_from_message t
             (match auth with | some uid => uid | none => ""))]⟩) := by
  cases data with
  | nonObj v => simp [JBody.pyGet] at hty
  | obj fields =>
    have hty' : (lookupField fields "type").getD (JVal.prim .null) =
        JVal.prim (.str "event_callback") := by
      simpa [JBody.pyGet] using hty
    have heid' : (lookupField fields "event_id").getD (JVal.prim .null) = eid := by
      simpa [JBody.pyGet] using heid
    have hev' : (lookupField fields "event").getD (JVal.obj []) = ev := by
      simpa [JBody.pyGetD] using hev
    simp only [slack_events, JBody.pyGet, JBody.pyGetD, hty', heid', hev', hh, hnew,
      hety, hch, htt, hts, htext]
    simp only [show ¬ (JVal.prim (JPrim.str "event_callback") =
      JVal.prim (.str "url_verification")) from by decide, if_false, if_pos rfl]
    simp [hnew]

theorem slack_events_non_mention (auth : Option String) (st : Finset JVal)
    (data : JBody) (eid ev : JVal) (ety : JPrim)
    (hty : data.pyGet "type" = .ok (JVal.prim (.str "event_callback")))
    (hev : data.pyGetD "event" (JVal.obj []) = .ok ev)
    (heid : data.pyGet "event_id" = .ok eid)
    (hh : hashable eid = true)
    (hnew : eid ∉ st)
    (hety : ev.pyGetP "type" = .ok ety)
    (hne : ety ≠ .str "app_mention") :
    slack_events auth st data = .ok ⟨.okResp, markEvent st eid, []⟩ := by
  cases data with
  | nonObj v => simp [JBody.pyGet] at hty
  | obj fields =>
    have hty' : (lookupField fields "type").getD (JVal.prim .null) =
        JVal.prim (.str "event_callback") := by
      simpa [JBody.pyGet] using hty
    have heid' : (lookupField fields "event_id").getD (JVal.prim .null) = eid := by
      simpa [JBody.pyGet] using heid
    have hev' : (lookupField fields "event").getD (JVal.obj []) = ev := by
      simpa [JBody.pyGetD] using hev
    simp only [slack_events, JBody.pyGet, JBody.pyGetD, hty', heid', hev', hh, hnew, hety]
    simp only [show ¬ (JVal.prim (JPrim.str "event_callback") =
      JVal.prim (.str "url_verification")) from by decide, if_false, if_pos rfl]
    simp [hnew, hne]

theorem mem_markEvent_of_card_lt {α : Type} [DecidableEq α] {s : Finset α}
    (e : α) (h : s.card < 1000) : e ∈ markEvent s e := by
  have hcard : (insert e s).card ≤ 1000 :=
    le_trans (Finset.card_insert_le e s) (by omega)
  rw [markEvent_of_card_le s e hcard]
  exact Finset.mem_insert_self e s

/-!
## The claims
-/

/-- C1 counterexample: for an upstream output shaped as a list whose first
element is neither url-bearing nor a string, `generate_image`'s
normalisation does NOT raise — it silently returns `str(first_output)`
(line 99), contradicting the claim that it raises for that shape. -/
theorem C1_cex :
    extractUrl (RepOutput.list [RepItem.otherVal "FileOutput-repr"]) =
      Except.ok "FileOutput-repr" ∧
    (extractUrl (RepOutput.list [RepItem.otherVal "FileOutput-repr"])).isOk = true := by
  exact ⟨rfl, rfl⟩

/-- C1 (amended): for every upstream output, normalisation succeeds exactly
when the output is a non-empty list or a single url-bearing/string value;
for a non-empty list it returns the first element's url, the first string,
or `str(first_output)` for any other first element (a silent
stringification, not an error); for the remaining shapes (empty list, or a
single value that is neither url-bearing nor a string) it raises the
explicit "Unexpected output format" error. -/
theorem C1_thm (out : RepOutput) :
    ((∃ u, extractUrl out = .ok u) ↔
      out ≠ RepOutput.list [] ∧ ∀ r, out ≠ RepOutput.single (.otherVal r)) ∧
    (∀ u rest, extractUrl (.list (RepItem.withUrl u :: rest)) = .ok u) ∧
    (∀ s rest, extractUrl (.list (RepItem.strVal s :: rest)) = .ok s) ∧
    (∀ r rest, extractUrl (.list (RepItem.otherVal r :: rest)) = .ok r) ∧
    (∀ u, extractUrl (.single (RepItem.withUrl u)) = .ok u) ∧
    (∀ s, extractUrl (.single (RepItem.strVal s)) = .ok s) := by
  refine ⟨?_, fun u rest => rfl, fun s rest => rfl, fun r rest => rfl,
    fun u => rfl, fun s => rfl⟩
  constructor
  · rintro ⟨u, hu⟩
    constructor
    · rintro rfl; simp [extractUrl] at hu
    · rintro r rfl; simp [extractUrl] at hu
  · rintro ⟨hne, hno⟩
    cases out with
    | list items =>
      cases items with
      | nil => exact absurd rfl hne
      | cons x xs => cases x <;> exact ⟨_, rfl⟩
    | single item =>
      cases item with
      | withUrl u => exact ⟨u, rfl⟩
      | strVal s => exact ⟨s, rfl⟩
      | otherVal r => exact absurd rfl (hno r)

/-- C2 counterexample: the regex `(\d+)[-\s]?year[-\s]?old` only matches the
singular `year`, so the prompt `"my 3 years old self at a park"` (the
claim's `"3 years old"` form) falls back to the default `"5"` instead of
yielding `"3"`. -/
theorem C2_cex :
    derivedAge "my 3 years old self at a park" = "5" ∧
    derivedAge "my 3 years old self at a park" ≠ "3" := by
  exact ⟨by decide, by decide⟩

/-- C2 (amended): the derived age parameter equals the digit group of the
leftmost occurrence in the lowercased prompt of the pattern "digits,
optional single hyphen/whitespace separator, `year` (singular only),
optional single separator, `old`"; when no such occurrence exists it equals
the fixed hard-coded fallback `"5"` (no environment-configured default is
consulted, and the plural `"N years old"` does not match). -/
theorem C2_thm :
    (∀ p : String, (∀ i d, ¬ ageMatchAt (pyLower p) i d) → derivedAge p = "5") ∧
    (∀ (p : String) (i : ℕ) (d : List Char), ageMatchAt (pyLower p) i d →
      (∀ j d', j < i → ¬ ageMatchAt (pyLower p) j d') →
      derivedAge p = String.mk d) ∧
    derivedAge "my 7-year-old self at a park" = "7" ∧
    derivedAge "just me at a park" = "5" := by
  refine ⟨?_, ?_, by decide, by decide⟩
  · intro p h
    unfold derivedAge
    rcases hf : findAge (pyLower p) with _ | d
    · rfl
    · rcases findAge_some (pyLower p) d hf with ⟨i, hi, -⟩
      exact absurd hi (h i d)
  · intro p i d hm hmin
    unfold derivedAge
    rw [findAge_of_min (pyLower p) i d hm hmin]

/-- C2 witness: the amended theorem applied at the concrete no-pattern
prompt, the universal hypothesis discharged through the scanner's
completeness. -/
theorem C2_wit : derivedAge "just me at a park" = "5" :=
  C2_thm.1 "just me at a park" (findAge_none _ (by decide))

/-- C3 counterexample: inserting 1001 distinct ids into the empty set
already leaves the set empty — the clear fires during the 1001st insert
itself, so on the NEXT (1002nd) insert the size becomes 1, not 0 as the
claim states. -/
theorem C3_cex :
    (List.range 1001).foldl markEvent (∅ : Finset ℕ) = ∅ ∧
    ((List.range 1002).foldl markEvent (∅ : Finset ℕ)).card = 1 := by
  refine ⟨foldl_markEvent_range_1001, ?_⟩
  have hsplit : List.range 1002 = List.range 1001 ++ [1001] := List.range_succ 1001
  rw [hsplit, List.foldl_append, foldl_markEvent_range_1001]
  simp [markEvent]

/-- C3 (amended): after inserting 1001 distinct event ids into the empty
set, the cap-then-clear fires during the 1001st insert itself: the set is
already empty after it (so every previously marked id, the 1001st included,
is unseen), the next insert produces a set of size 1, and the set never
holds more than 1000 entries after any insert completes. -/
theorem C3_thm {α : Type} [DecidableEq α] (L : List α) (hlen : L.length = 1001)
    (hnd : L.Nodup) :
    L.foldl markEvent ∅ = ∅ ∧
    (∀ x ∈ L, x ∉ L.foldl markEvent ∅) ∧
    (∀ (s : Finset α) (e : α), (markEvent s e).card ≤ 1000) ∧
    (∀ e : α, (markEvent (L.foldl markEvent ∅) e).card = 1) := by
  have hne : L ≠ [] := by intro h; rw [h] at hlen; cases hlen
  have hdecomp : L.dropLast ++ [L.getLast hne] = L := List.dropLast_append_getLast hne
  have hndrop : L.dropLast.Nodup := hnd.sublist (List.dropLast_sublist L)
  have hlast_not : L.getLast hne ∉ L.dropLast := by
    have h2 := hnd
    rw [← hdecomp] at h2
    rcases List.nodup_append.mp h2 with ⟨-, -, hdisj⟩
    intro hmem
    exact hdisj hmem (List.mem_singleton_self _)
  have hlendrop : L.dropLast.length = 1000 := by
    rw [List.length_dropLast, hlen]
  have hcarddrop : L.dropLast.toFinset.card = 1000 := by
    rw [List.toFinset_card_of_nodup hndrop, hlendrop]
  have hfold_drop : L.dropLast.foldl markEvent ∅ = L.dropLast.toFinset := by
    have h : ((∅ : Finset α) ∪ L.dropLast.toFinset).card ≤ 1000 := by
      rw [Finset.empty_union, hcarddrop]
    rw [foldl_markEvent_of_card_le _ _ h, Finset.empty_union]
  have hmain : L.foldl markEvent ∅ = ∅ := by
    conv_lhs => rw [← hdecomp]
    rw [List.foldl_append, hfold_drop]
    have hnotfin : L.getLast hne ∉ L.dropLast.toFinset := by
      simpa [List.mem_toFinset] using hlast_not
    have hcard : (insert (L.getLast hne) L.dropLast.toFinset).card = 1001 := by
      rw [Finset.card_insert_of_not_mem hnotfin, hcarddrop]
    simp only [List.foldl_cons, List.foldl_nil, markEvent, hcard]
    norm_num
  refine ⟨hmain, ?_, fun s e => markEvent_card_le s e, ?_⟩
  · intro x _
    rw [hmain]
    exact Finset.not_mem_empty x
  · intro e
    rw [hmain]
    have hcard : (insert e (∅ : Finset α)).card = 1 := by simp
    simp [markEvent, hcard]

/-- C3 witness: the amended theorem at the 1001 distinct ids 0..1000. -/
theorem C3_wit :
    (List.range 1001).foldl markEvent (∅ : Finset ℕ) = ∅ ∧
    (∀ x ∈ List.range 1001, x ∉ (List.range 1001).foldl markEvent (∅ : Finset ℕ)) ∧
    (∀ (s : Finset ℕ) (e : ℕ), (markEvent s e).card ≤ 1000) ∧
    (∀ e : ℕ, (markEvent ((List.range 1001).foldl markEvent ∅) e).card = 1) :=
  C3_thm (List.range 1001) (List.length_range 1001) (List.nodup_range 1001)

/-- C4: an `event_callback` whose `event_id` is already in the seen-set is
dropped before any side-effecting work: the handler answers the generic ok,
the set is unchanged, and no message is posted and no background unit is
dispatched — so processing the same payload a second time (before any
cap-reset) has no observable effect beyond the first. -/
theorem C4_thm (auth : Option String) (st : Finset JVal) (data : JBody) (eid : JVal)
    (hty : data.pyGet "type" = .ok (JVal.prim (.str "event_callback")))
    (heid : data.pyGet "event_id" = .ok eid)
    (hh : hashable eid = true)
    (hmem : eid ∈ st) :
    slack_events auth st data = .ok ⟨.okResp, st, []⟩ :=
  slack_events_duplicate auth st data eid hty heid hh hmem

/-- C4 witness: replaying `event_id="E1"` with `"E1"` already seen. -/
theorem C4_wit :
    slack_events (some "U123") {JVal.prim (.str "E1")}
      (JBody.obj [("type", .prim (.str "event_callback")),
        ("event_id", .prim (.str "E1")),
        ("event", .obj [("type", .str "app_mention"), ("channel", .str "C1"),
          ("ts", .str "T1"), ("text", .str "<@U123> hi")])]) =
      .ok ⟨.okResp, {JVal.prim (.str "E1")}, []⟩ :=
  C4_thm (some "U123") {JVal.prim (.str "E1")} _ (JVal.prim (.str "E1"))
    (by decide) (by decide) (by decide) (by decide)

/-- C5: prompt extraction equals the spec's description — remove every
occurrence of the mention token, collapse whitespace runs to single spaces,
trim both ends — for every text and identifier (the identifier read
literally, as `re.sub` does for metacharacter-free Slack ids); in
particular the claim's concrete example extracts correctly. -/
theorem C5_thm :
    (∀ text bot_user_id : String,
      extract_prompt_from_message text bot_user_id =
        extract_prompt_spec text bot_user_id) ∧
    extract_prompt_from_message "  <@U123>   draw me as a kid  " "U123" =
      "draw me as a kid" := by
  exact ⟨extract_eq_extract_spec, by decide⟩

/-- C6: an `app_mention` whose text reduces to the empty prompt (after
mention removal and whitespace normalisation) makes the handler post the
usage hint into the originating thread and return ok without dispatching
any background unit. -/
theorem C6_thm (auth : Option String) (st : Finset JVal) (data : JBody)
    (eid ev : JVal) (ch tts ts : JPrim) (t : String)
    (hty : data.pyGet "type" = .ok (JVal.prim (.str "event_callback")))
    (hev : data.pyGetD "event" (JVal.obj []) = .ok ev)
    (heid : data.pyGet "event_id" = .ok eid)
    (hh : hashable eid = true)
    (hnew : eid ∉ st)
    (hety : ev.pyGetP "type" = .ok (.str "app_mention"))
    (hch : ev.pyGetP "channel" = .ok ch)
    (htt : ev.pyGetP "thread_ts" = .ok tts)
    (hts : ev.pyGetP "ts" = .ok ts)
    (htext : ev.pyGetPD "text" (.str "") = .ok (.str t))
    (hempty : extract_prompt_from_message t
      (match auth with | some uid => uid | none => "") = "") :
    slack_events auth st data =
      .ok ⟨.okResp, markEvent st eid,
        [.postMessage ch (if truthyP tts then tts else ts) usageHint]⟩ := by
  rw [slack_events_app_mention auth st data eid ev ch tts ts t hty hev heid hh hnew
    hety hch htt hts htext, if_pos hempty]

set_option maxRecDepth 8192 in
/-- C6 witness: a mention whose text is only the mention token. -/
theorem C6_wit :
    slack_events (some "U123") ∅
      (JBody.obj [("type", .prim (.str "event_callback")),
        ("event_id", .prim (.str "E2")),
        ("event", .obj [("type", .str "app_mention"), ("channel", .str "C1"),
          ("ts", .str "T1"), ("text", .str " <@U123> ")])]) =
      .ok ⟨.okResp, markEvent ∅ (JVal.prim (.str "E2")),
        [.postMessage (.str "C1") (if truthyP .null then .null else .str "T1") usageHint]⟩ :=
  C6_thm (some "U123") ∅
    (JBody.obj [("type", .prim (.str "event_callback")),
      ("event_id", .prim (.str "E2")),
      ("event", .obj [("type", .str "app_mention"), ("channel", .str "C1"),
        ("ts", .str "T1"), ("text", .str " <@U123> ")])])
    (JVal.prim (.str "E2"))
    (JVal.obj [("type", .str "app_mention"), ("channel", .str "C1"),
      ("ts", .str "T1"), ("text", .str " <@U123> ")])
    (.str "C1") .null (.str "T1") " <@U123> " (by decide) (by decide) (by decide)
    (by decide) (by decide) (by decide) (by decide) (by decide) (by decide)
    (by decide) (by decide)

/-- C7: any failure inside a dispatched unit — generation (including a shape
error), image download, or upload — is caught at the unit's boundary: the
trace is exactly the initial acknowledgment followed by one error message
containing the failure's description, posted to the originating thread; the
unit is a total function, so nothing propagates to the receiver path. -/
theorem C7_thm (cfg : BotConfig) (env : UnitEnv) (channel thread_ts : JPrim)
    (user_prompt : String) (e : String)
    (hfail :
      generate_image cfg env.runModel user_prompt = .error e ∨
      (∃ url, generate_image cfg env.runModel user_prompt = .ok url ∧
        env.download url = .error e) ∨
      (∃ url image_bytes, generate_image cfg env.runModel user_prompt = .ok url ∧
        env.download url = .ok image_bytes ∧
        env.upload channel thread_ts image_bytes user_prompt = some e)) :
    process_image_request cfg env channel thread_ts user_prompt =
      [send_slack_message env channel thread_ts workingMsg,
       send_slack_message env channel thread_ts (errMsg e)] := by
  unfold process_image_request
  rcases hfail with h | ⟨url, hgen, hdl⟩ | ⟨url, image_bytes, hgen, hdl, hup⟩
  · rw [h]
  · simp only [hgen, hdl]
  · simp only [hgen, hdl, upload_image_to_slack, hup]

/-- C7 witness: a unit whose generation call raises. -/
theorem C7_wit :
    process_image_request ⟨"VISHYFACE", none, "m"⟩
      ⟨fun _ _ => .error "boom", fun _ => .error "dl", fun _ _ _ => none,
        fun _ _ _ _ => some "up"⟩
      (.str "C1") (.str "T1") "hi" =
      [.posted (.str "C1") (.str "T1") workingMsg,
       .posted (.str "C1") (.str "T1") (errMsg "boom")] :=
  C7_thm ⟨"VISHYFACE", none, "m"⟩
    ⟨fun _ _ => .error "boom", fun _ => .error "dl", fun _ _ _ => none,
      fun _ _ _ _ => some "up"⟩
    (.str "C1") (.str "T1") "hi" "boom" (Or.inl rfl)

theorem pyGet_obj (fields : List (String × JVal)) (k : String) :
    (JBody.obj fields).pyGet k = .ok ((lookupField fields k).getD (JVal.prim .null)) :=
  rfl

theorem slack_events_url (auth : Option String) (st : Finset JVal)
    (fields : List (String × JVal))
    (hty : (lookupField fields "type").getD (JVal.prim .null) =
      JVal.prim (.str "url_verification")) :
    slack_events auth st (.obj fields) =
      .ok ⟨.challengeResp ((lookupField fields "challenge").getD (JVal.prim .null)),
        st, []⟩ := by
  simp only [slack_events, JBody.pyGet, hty]
  simp

theorem slack_events_other_type (auth : Option String) (st : Finset JVal)
    (fields : List (String × JVal))
    (h1 : (lookupField fields "type").getD (JVal.prim .null) ≠
      JVal.prim (.str "url_verification"))
    (h2 : (lookupField fields "type").getD (JVal.prim .null) ≠
      JVal.prim (.str "event_callback")) :
    slack_events auth st (.obj fields) = .ok ⟨.okResp, st, []⟩ := by
  simp only [slack_events, JBody.pyGet]
  rw [if_neg h1, if_neg h2]

/-- The shape conditions under which the nested event value cannot make the
handler raise: it is an object, and if it is an `app_mention` its text (when
present) is a string. -/
def eventSafe : JVal → Bool
  | .obj fields =>
    match lookupField fields "type" with
    | some (.str "app_mention") =>
      (match lookupField fields "text" with
       | some (.str _) => true
       | none => true
       | some _ => false)
    | _ => true
  | _ => false

/-- The shape conditions under which the handler cannot raise, regardless of
the seen-set: the body is a JSON object, and when its type is
`event_callback` its `event_id` is hashable and its `event` (when present)
satisfies `eventSafe`. -/
def bodySafe : JBody → Bool
  | .nonObj _ => false
  | .obj fields =>
    match lookupField fields "type" with
    | some (JVal.prim (.str "event_callback")) =>
      (match lookupField fields "event_id" with
       | some (.arr _) => false
       | some (.obj _) => false
       | _ => true) &&
      (match lookupField fields "event" with
       | some ev => eventSafe ev
       | none => true)
    | _ => true

/-- C8 counterexample: four well-formed JSON bodies on which the handler
raises an uncaught exception (Flask then answers HTTP 500, not 200): a
non-object body (`data.get` raises `AttributeError`), an `event_callback`
with an unhashable (array) `event_id` (`in processed_events` raises
`TypeError`), one whose `event` is a string (`event.get` raises
`AttributeError`), and an `app_mention` whose text is a number (`re.sub`
raises `TypeError`). -/
theorem C8_cex :
    (slack_events none ∅ (JBody.nonObj (JVal.arr 2))).isOk = false ∧
    (slack_events none ∅ (JBody.obj [("type", .prim (.str "event_callback")),
      ("event_id", .arr 2)])).isOk = false ∧
    (slack_events none ∅ (JBody.obj [("type", .prim (.str "event_callback")),
      ("event", .prim (.str "oops"))])).isOk = false ∧
    (slack_events none ∅ (JBody.obj [("type", .prim (.str "event_callback")),
      ("event", .obj [("type", .str "app_mention"),
        ("text", .num 5)])])).isOk = false := by
  exact ⟨by decide, by decide, by decide, by decide⟩

set_option maxHeartbeats 1600000 in
/-- C8 (amended): for every JSON object body that satisfies the shape
conditions `bodySafe` (its `event_id` is hashable and its nested `event`,
when it is inspected at all, is an object whose `app_mention` text is a
string or absent), the handler responds HTTP 200: it echoes the challenge
value for `url_verification` and returns the generic ok acknowledgment for
`event_callback` and for every unrecognized type.  (For bodies outside
these conditions — e.g. a non-object body — the handler raises and Flask
answers 500; see the counterexample.) -/
theorem C8_thm (auth : Option String) (st : Finset JVal) (data : JBody)
    (hsafe : bodySafe data = true) :
    ∃ res, slack_events auth st data = .ok res ∧
      (data.pyGet "type" = .ok (JVal.prim (.str "url_verification")) →
        ∃ c, data.pyGet "challenge" = .ok c ∧ res.response = .challengeResp c) ∧
      (data.pyGet "type" ≠ .ok (JVal.prim (.str "url_verification")) →
        res.response = .okResp) := by
  cases data with
  | nonObj v => simp [bodySafe] at hsafe
  | obj fields =>
    by_cases hty : (lookupField fields "type").getD (JVal.prim .null) =
        JVal.prim (.str "url_verification")
    · refine ⟨_, slack_events_url auth st fields hty, ?_, ?_⟩
      · intro _
        exact ⟨_, pyGet_obj fields "challenge", rfl⟩
      · intro hne
        exact absurd (by rw [pyGet_obj, hty]) hne
    · have hnoturl : ¬ ((JBody.obj fields).pyGet "type" =
          .ok (JVal.prim (.str "url_verification"))) := by
        rw [pyGet_obj]
        intro habs
        exact hty (Except.ok.inj habs)
      by_cases hty2 : (lookupField fields "type").getD (JVal.prim .null) =
          JVal.prim (.str "event_callback")
      · have hlk : lookupField fields "type" =
            some (JVal.prim (.str "event_callback")) := by
          rcases h : lookupField fields "type" with _ | v
          · rw [h] at hty2; simp at hty2
          · rw [h] at hty2; simp at hty2; rw [hty2]
        have hsafe' := hsafe
        simp only [bodySafe, hlk, Bool.and_eq_true] at hsafe'
        obtain ⟨hid, hevs⟩ := hsafe'
        have hhash : hashable ((lookupField fields "event_id").getD
            (JVal.prim .null)) = true := by
          rcases h : lookupField fields "event_id" with _ | v
          · rfl
          · rw [h] at hid
            cases v with
            | prim p => rfl
            | obj f => simp at hid
            | arr n => simp at hid
        by_cases hmem : (lookupField fields "event_id").getD (JVal.prim .null) ∈ st
        · exact ⟨⟨.okResp, st, []⟩,
            slack_events_duplicate auth st (.obj fields) _
              (by rw [pyGet_obj, hty2]) (pyGet_obj fields "event_id") hhash hmem,
            fun habs => absurd habs hnoturl, fun _ => rfl⟩
        · rcases hev : lookupField fields "event" with _ | evv
          · exact ⟨⟨.okResp, markEvent st _, []⟩,
              slack_events_non_mention auth st (.obj fields) _ (JVal.obj []) .null
                (by rw [pyGet_obj, hty2]) (by simp [JBody.pyGetD, hev])
                (pyGet_obj fields "event_id") hhash hmem rfl (by decide),
              fun habs => absurd habs hnoturl, fun _ => rfl⟩
          · rw [hev] at hevs
            cases evv with
            | prim p => simp [eventSafe] at hevs
            | arr n => simp [eventSafe] at hevs
            | obj efields =>
              by_cases hm : (lookupField efields "type").getD JPrim.null =
                  JPrim.str "app_mention"
              · have htext : ∃ t, (lookupField efields "text").getD (JPrim.str "") =
                    JPrim.str t := by
                  have hlk2 : lookupField efields "type" =
                      some (JPrim.str "app_mention") := by
                    rcases h : lookupField efields "type" with _ | p
                    · rw [h] at hm; simp at hm
                    · rw [h] at hm; simp at hm; rw [hm]
                  simp only [eventSafe, hlk2] at hevs
                  rcases h : lookupField efields "text" with _ | p
                  · exact ⟨"", rfl⟩
                  · rw [h] at hevs
                    cases p with
                    | str s => exact ⟨s, rfl⟩
                    | num n => simp at hevs
                    | jbool b => simp at hevs
                    | null => simp at hevs
                rcases htext with ⟨t, ht⟩
                have happ := slack_events_app_mention auth st (.obj fields) _
                  (JVal.obj efields)
                  ((lookupField efields "channel").getD .null)
                  ((lookupField efields "thread_ts").getD .null)
                  ((lookupField efields "ts").getD .null) t
                  (by rw [pyGet_obj, hty2]) (by simp [JBody.pyGetD, hev])
                  (pyGet_obj fields "event_id") hhash hmem
                  (by rw [show (JVal.obj efields).pyGetP "type" =
                    .ok ((lookupField efields "type").getD .null) from rfl, hm])
                  rfl rfl rfl
                  (by rw [show (JVal.obj efields).pyGetPD "text" (.str "") =
                    .ok ((lookupField efields "text").getD (.str "")) from rfl, ht])
                obtain ⟨bid, hbid⟩ : ∃ bid,
                    (match auth with | some uid => uid | none => "") = bid := ⟨_, rfl⟩
                rw [hbid] at happ
                by_cases hempty : extract_prompt_from_message t bid = ""
                · rw [if_pos hempty] at happ
                  exact ⟨_, happ, fun habs => absurd habs hnoturl, fun _ => rfl⟩
                · rw [if_neg hempty] at happ
                  exact ⟨_, happ, fun habs => absurd habs hnoturl, fun _ => rfl⟩
              · exact ⟨⟨.okResp, markEvent st _, []⟩,
                  slack_events_non_mention auth st (.obj fields) _ (JVal.obj efields)
                    ((lookupField efields "type").getD .null)
                    (by rw [pyGet_obj, hty2]) (by simp [JBody.pyGetD, hev])
                    (pyGet_obj fields "event_id") hhash hmem rfl hm,
                  fun habs => absurd habs hnoturl, fun _ => rfl⟩
      · exact ⟨⟨.okResp, st, []⟩, slack_events_other_type auth st fields hty hty2,
          fun habs => absurd habs hnoturl, fun _ => rfl⟩

/-- C8 witness: the handler echoing a concrete challenge. -/
theorem C8_wit :
    ∃ res, slack_events none ∅
      (JBody.obj [("type", .prim (.str "url_verification")),
        ("challenge", .prim (.str "tok123"))]) = .ok res ∧
      ((JBody.obj [("type", .prim (.str "url_verification")),
        ("challenge", .prim (.str "tok123"))]).pyGet "type" =
          .ok (JVal.prim (.str "url_verification")) →
        ∃ c, (JBody.obj [("type", .prim (.str "url_verification")),
          ("challenge", .prim (.str "tok123"))]).pyGet "challenge" = .ok c ∧
          res.response = .challengeResp c) ∧
      ((JBody.obj [("type", .prim (.str "url_verification")),
        ("challenge", .prim (.str "tok123"))]).pyGet "type" ≠
          .ok (JVal.prim (.str "url_verification")) →
        res.response = .okResp) :=
  C8_thm none ∅
    (JBody.obj [("type", .prim (.str "url_verification")),
      ("challenge", .prim (.str "tok123"))]) (by decide)

/-- C9: a body lacking `event_id` yields `data.get("event_id") = None`, and
`None` itself is used as the deduplication key: the first such event is
marked (`None` enters the seen-set, given room below the cap) and handled as
a first-time event, and every subsequent `event_callback` that also lacks
`event_id` is dropped as a duplicate — generic ok, no state change, no
actions — until a cap-triggered clear removes `None` again. -/
theorem C9_thm :
    (∀ (auth : Option String) (st : Finset JVal) (data : JBody) (ev : JVal)
        (ety : JPrim),
      data.pyGet "type" = .ok (JVal.prim (.str "event_callback")) →
      data.pyGet "event_id" = .ok (JVal.prim .null) →
      JVal.prim .null ∉ st →
      data.pyGetD "event" (JVal.obj []) = .ok ev →
      ev.pyGetP "type" = .ok ety →
      ety ≠ .str "app_mention" →
      slack_events auth st data = .ok ⟨.okResp, markEvent st (JVal.prim .null), []⟩ ∧
        (st.card < 1000 → JVal.prim .null ∈ markEvent st (JVal.prim .null))) ∧
    (∀ (auth : Option String) (st2 : Finset JVal) (data2 : JBody),
      data2.pyGet "type" = .ok (JVal.prim (.str "event_callback")) →
      data2.pyGet "event_id" = .ok (JVal.prim .null) →
      JVal.prim .null ∈ st2 →
      slack_events auth st2 data2 = .ok ⟨.okResp, st2, []⟩) := by
  constructor
  · intro auth st data ev ety hty heid hnew hev hety hne
    refine ⟨slack_events_non_mention auth st data (JVal.prim .null) ev ety
      hty hev heid rfl hnew hety hne, ?_⟩
    intro hcard
    exact mem_markEvent_of_card_lt _ hcard
  · intro auth st2 data2 hty heid hmem
    exact slack_events_duplicate auth st2 data2 (JVal.prim .null) hty heid rfl hmem

/-- C9 witness: a first `event_callback` without `event_id` (and with no
nested event, so the default empty event object is used), followed by the
duplicate drop of a second id-less body. -/
theorem C9_wit :
    (slack_events none ∅ (JBody.obj [("type", .prim (.str "event_callback"))]) =
        .ok ⟨.okResp, markEvent ∅ (JVal.prim .null), []⟩ ∧
      ((∅ : Finset JVal).card < 1000 →
        JVal.prim .null ∈ markEvent (∅ : Finset JVal) (JVal.prim .null))) ∧
    slack_events none {JVal.prim .null}
      (JBody.obj [("type", .prim (.str "event_callback"))]) =
      .ok ⟨.okResp, {JVal.prim .null}, []⟩ :=
  ⟨C9_thm.1 none ∅ (JBody.obj [("type", .prim (.str "event_callback"))])
      (JVal.obj []) .null (by decide) (by decide) (by decide) (by decide)
      (by decide) (by decide),
    C9_thm.2 none {JVal.prim .null}
      (JBody.obj [("type", .prim (.str "event_callback"))])
      (by decide) (by decide) (by decide)⟩

/-- C10: when resolving the bot's own identifier fails (`auth_test` raises),
the handler substitutes the empty string, so extraction removes only the
literal token `<@>`: the event is still accepted and dispatched (not
rejected), and the dispatched prompt is `extract_prompt_from_message t ""`
— in particular a real mention token such as `<@U999>` survives into the
forwarded prompt, as the concrete conjunct shows. -/
theorem C10_thm :
    (∀ (st : Finset JVal) (data : JBody) (eid ev : JVal) (ch tts ts : JPrim)
        (t : String),
      data.pyGet "type" = .ok (JVal.prim (.str "event_callback")) →
      data.pyGetD "event" (JVal.obj []) = .ok ev →
      data.pyGet "event_id" = .ok eid →
      hashable eid = true →
      eid ∉ st →
      ev.pyGetP "type" = .ok (.str "app_mention") →
      ev.pyGetP "channel" = .ok ch →
      ev.pyGetP "thread_ts" = .ok tts →
      ev.pyGetP "ts" = .ok ts →
      ev.pyGetPD "text" (.str "") = .ok (.str t) →
      extract_prompt_from_message t "" ≠ "" →
      slack_events none st data =
        .ok ⟨.okResp, markEvent st eid,
          [.dispatch ch (if truthyP tts then tts else ts)
            (extract_prompt_from_message t "")]⟩) ∧
    extract_prompt_from_message "<@U999> draw me as a kid" "" =
      "<@U999> draw me as a kid" := by
  constructor
  · intro st data eid ev ch tts ts t hty hev heid hh hnew hety hch htt hts htext hne
    rw [slack_events_app_mention none st data eid ev ch tts ts t hty hev heid hh hnew
      hety hch htt hts htext]
    exact if_neg hne
  · decide

set_option maxRecDepth 8192 in
/-- C10 witness: the unstripped mention `<@U9>` is forwarded to generation
when the bot id resolution has failed. -/
theorem C10_wit :
    slack_events none ∅
      (JBody.obj [("type", .prim (.str "event_callback")),
        ("event_id", .prim (.str "E9")),
        ("event", .obj [("type", .str "app_mention"), ("channel", .str "C1"),
          ("ts", .str "T1"), ("text", .str "<@U9> draw me")])]) =
      .ok ⟨.okResp, markEvent ∅ (JVal.prim (.str "E9")),
        [.dispatch (.str "C1") (if truthyP .null then .null else .str "T1")
          (extract_prompt_from_message "<@U9> draw me" "")]⟩ :=
  C10_thm.1 ∅
    (JBody.obj [("type", .prim (.str "event_callback")),
      ("event_id", .prim (.str "E9")),
      ("event", .obj [("type", .str "app_mention"), ("channel", .str "C1"),
        ("ts", .str "T1"), ("text", .str "<@U9> draw me")])])
    (JVal.prim (.str "E9"))
    (JVal.obj [("type", .str "app_mention"), ("channel", .str "C1"),
      ("ts", .str "T1"), ("text", .str "<@U9> draw me")])
    (.str "C1") .null (.str "T1") "<@U9> draw me"
    (by decide) (by decide) (by decide) (by decide) (by decide) (by decide)
    (by decide) (by decide) (by decide) (by decide) (by decide)

/-- C1 witness: the amended characterisation at a concrete single
url-bearing output. -/
theorem C1_wit : extractUrl (RepOutput.single (RepItem.withUrl "https://x/y.webp")) =
    .ok "https://x/y.webp" :=
  (C1_thm (RepOutput.single (RepItem.withUrl "https://x/y.webp"))).2.2.2.2.1
    "https://x/y.webp"

/-- C5 witness: the refinement equation at a concrete input. -/
theorem C5_wit :
    extract_prompt_from_message "  <@U123>   draw me as a kid  " "U123" =
      extract_prompt_spec "  <@U123>   draw me as a kid  " "U123" :=
  C5_thm.1 "  <@U123>   draw me as a kid  " "U123"
